import Mathlib

/-!
Verification development for the codeclip repository.

This file gives a shallow embedding, in Lean 4, of the core algorithms of the
codeclip source tree (the `internal/search` snippet engine, the
`internal/output` formatting merge, and the `internal/finder` header
extractor), and proves properties of those embeddings.

Modelling conventions:
* Go `int` values are embedded as `Int` (Go line numbers and counters never
  overflow 64 bits on the inputs considered here).
* Go `string` values are embedded as Lean `String`; `strings.Split`,
  `strings.Join`, `strings.TrimSpace`, `strings.Fields` are embedded by
  `String.splitOn`, `String.intercalate`, `String.trim` and a `fields`
  helper defined below.
* `sort.Slice(snippets, less)` with the strict start-line comparison is
  embedded as a stable insertion sort by `≤` on start lines
  (`List.insertionSort`).  Go's `sort.Slice` runs plain insertion sort on
  slices shorter than 12 elements, where a strict-`<` insertion sort is
  exactly the stable `≤` insertion sort, so the embedding agrees with the
  code on all short inputs; on longer inputs it fixes one of the
  permitted orders of equal keys.
* File I/O is embedded by passing an explicit file system
  `String → Option (List String)` mapping a path to its lines; a path on
  which it is `none` is a file that cannot be opened/read.
-/

namespace Codeclip

/-! ### String helpers shared by the embeddings

All helpers are written by structural recursion on character lists so that
every embedded function can be evaluated on concrete inputs inside the
kernel (Lean's own `String.splitOn` and friends use well-founded recursion
and do not reduce definitionally). -/

/-- Decides whether `pre` is a prefix of `l` (Go `strings.HasPrefix` on
character lists). -/
def listStartsWith : List Char → List Char → Bool
  | _, [] => true
  | [], _ :: _ => false
  | a :: as, b :: bs => a == b && listStartsWith as bs

/-- Embedding of Go `strings.HasPrefix`. -/
def startsWithStr (s pre : String) : Bool :=
  listStartsWith s.toList pre.toList

/-- Fuel-driven worker for `splitOnStr`: splits `hay` at each
non-overlapping occurrence of `needle`, accumulating the current piece in
reverse in `acc`.  The fuel only needs to exceed the length of `hay`. -/
def splitFuel (needle : List Char) : Nat → List Char → List Char → List (List Char)
  | 0, hay, acc => [acc.reverse ++ hay]
  | n + 1, hay, acc =>
    match hay with
    | [] => [acc.reverse]
    | c :: t =>
      if listStartsWith hay needle && !needle.isEmpty then
        acc.reverse :: splitFuel needle n (hay.drop needle.length) []
      else
        splitFuel needle n t (c :: acc)

/-- Embedding of Go `strings.Split s sub` for a nonempty separator `sub`:
split at every non-overlapping occurrence, keeping empty pieces. -/
def splitOnStr (s sub : String) : List String :=
  (splitFuel sub.toList (s.length + 1) s.toList []).map String.mk

/-- Worker for `containsSubstr`: does `needle` occur (as a contiguous run)
anywhere in the list? -/
def containsSubAux (needle : List Char) : List Char → Bool
  | [] => needle.isEmpty
  | c :: t => listStartsWith (c :: t) needle || containsSubAux needle t

/-- Embedding of Go `strings.Contains`. -/
def containsSubstr (s sub : String) : Bool :=
  containsSubAux sub.toList s.toList

/-- Embedding of Go `strings.Count s c` for a single-character pattern
(the only form the sources use, counting `{` and `}` occurrences). -/
def countSubstr (s : String) (c : Char) : Int :=
  ((s.toList.filter (fun x => x == c)).length : Int)

/-- Splits a character list at every character satisfying `p`, keeping
empty pieces. -/
def splitByPred (p : Char → Bool) : List Char → List Char → List (List Char)
  | [], acc => [acc.reverse]
  | c :: t, acc =>
    if p c then acc.reverse :: splitByPred p t []
    else splitByPred p t (c :: acc)

/-- Embedding of Go `strings.Fields`: split on whitespace, dropping empty
fields. -/
def fields (s : String) : List String :=
  ((splitByPred Char.isWhitespace s.toList []).map String.mk).filter (fun t => t ≠ "")

/-- Embedding of Go `strings.TrimSpace`. -/
def trimSpace (s : String) : String :=
  String.mk (((s.toList.dropWhile Char.isWhitespace).reverse.dropWhile Char.isWhitespace).reverse)

/-- Embedding of Go `strings.Trim s cutset` for an explicit character list
`cutset`: remove leading and trailing characters contained in `cutset`. -/
def trimCutset (s : String) (cutset : List Char) : String :=
  String.mk (((s.toList.dropWhile (cutset.contains ·)).reverse.dropWhile (cutset.contains ·)).reverse)

/-! ### Data model of `internal/search` (src/unnamed/part_005) -/

/-- Embedding of `search.Options`. -/
structure Options where
  ContextLines : Int
  EntireFunction : Bool
  FuzzySearch : Bool
deriving DecidableEq, Repr

/-- Embedding of `search.CodeSnippet`. -/
structure CodeSnippet where
  StartLine : Int
  EndLine : Int
  Content : String
  MatchInfo : String
deriving DecidableEq, Repr

/-- The fixed `adjacencyBuffer` constant of `mergeOverlappingSnippets`. -/
def adjacencyBuffer : Int := 3

/-- The merge step of `mergeOverlappingSnippets` (part_005 lines 82-103):
the body executed when `current.StartLine <= previous.EndLine+adjacencyBuffer`,
returning the updated `previous`. -/
def mergeInto (previous current : CodeSnippet) : CodeSnippet :=
  let previous :=
    if current.EndLine > previous.EndLine then
      let lines := splitOnStr previous.Content "\n"
      let currentLines := splitOnStr current.Content "\n"
      let linesToAdd := current.EndLine - previous.EndLine
      let lines :=
        if linesToAdd > 0 ∧ (currentLines.length : Int) ≥ linesToAdd then
          lines ++ currentLines.drop (currentLines.length - linesToAdd.toNat)
        else lines
      { previous with
          Content := String.intercalate "\n" lines
          EndLine := current.EndLine }
    else previous
  if previous.MatchInfo ≠ current.MatchInfo then
    { previous with
        MatchInfo := "Multiple matches between lines " ++
          toString previous.StartLine ++ "-" ++ toString previous.EndLine }
  else previous

/-- The fold of `mergeOverlappingSnippets` over the sorted snippet list
(part_005 lines 74-108).  `previous` is the last element of the Go `result`
slice (the only one that is still mutated); the elements already final are
emitted in front. -/
def mergeLoop (previous : CodeSnippet) : List CodeSnippet → List CodeSnippet
  | [] => [previous]
  | current :: rest =>
    if current.StartLine ≤ previous.EndLine + adjacencyBuffer then
      mergeLoop (mergeInto previous current) rest
    else
      previous :: mergeLoop current rest

/-- Comparison used by the `sort.Slice` call in `mergeOverlappingSnippets`. -/
def snipLE (a b : CodeSnippet) : Prop := a.StartLine ≤ b.StartLine

instance : DecidableRel snipLE := fun _ _ => Int.decLe _ _

instance : IsTotal CodeSnippet snipLE := ⟨fun _ _ => Int.le_total _ _⟩

instance : IsTrans CodeSnippet snipLE := ⟨fun _ _ _ h1 h2 => le_trans h1 h2⟩

/-- Embedding of `search.mergeOverlappingSnippets` (part_005 lines 63-111). -/
def mergeOverlappingSnippets (snippets : List CodeSnippet) : List CodeSnippet :=
  if snippets.length ≤ 1 then snippets
  else
    match List.insertionSort snipLE snippets with
    | [] => []
    | s :: rest => mergeLoop s rest

/-! ### Lemmas about the merge fold -/

theorem mergeInto_StartLine (p c : CodeSnippet) :
    (mergeInto p c).StartLine = p.StartLine := by
  unfold mergeInto
  dsimp only
  repeat' split
  all_goals rfl

theorem mergeLoop_head :
    ∀ (l : List CodeSnippet) (p : CodeSnippet),
      ∃ q t, mergeLoop p l = q :: t ∧ q.StartLine = p.StartLine := by
  intro l
  induction l with
  | nil => intro p; exact ⟨p, [], rfl, rfl⟩
  | cons current rest ih =>
    intro p
    by_cases h : current.StartLine ≤ p.EndLine + adjacencyBuffer
    · obtain ⟨q, t, hqt, hs⟩ := ih (mergeInto p current)
      refine ⟨q, t, ?_, ?_⟩
      · simpa [mergeLoop, h] using hqt
      · rw [hs, mergeInto_StartLine]
    · obtain ⟨q, t, hqt, hs⟩ := ih current
      exact ⟨p, mergeLoop current rest, by simp [mergeLoop, h], rfl⟩

/-- The invariant produced by the merge: consecutive output snippets are in
start-line order and separated by strictly more than the adjacency buffer. -/
def mergedOrdered (l : List CodeSnippet) : Prop :=
  List.Chain'
    (fun a b => a.StartLine ≤ b.StartLine ∧ a.EndLine + adjacencyBuffer < b.StartLine) l

theorem mergeLoop_chain :
    ∀ (rest : List CodeSnippet) (p : CodeSnippet),
      (∀ x ∈ rest, p.StartLine ≤ x.StartLine) →
      rest.Sorted snipLE →
      mergedOrdered (mergeLoop p rest) := by
  intro rest
  induction rest with
  | nil =>
    intro p _ _
    simp [mergeLoop, mergedOrdered]
  | cons current rest ih =>
    intro p hall hsort
    rw [List.sorted_cons] at hsort
    by_cases h : current.StartLine ≤ p.EndLine + adjacencyBuffer
    · have := ih (mergeInto p current)
        (fun x hx => by rw [mergeInto_StartLine]; exact hall x (List.mem_cons_of_mem _ hx))
        hsort.2
      simpa [mergeLoop, h] using this
    · rw [mergeLoop, if_neg h]
      obtain ⟨q, t, hqt, hqs⟩ := mergeLoop_head rest current
      rw [mergedOrdered, List.chain'_cons']
      refine ⟨?_, ih current hsort.1 hsort.2⟩
      intro y hy
      rw [hqt] at hy
      simp only [List.head?_cons, Option.mem_def, Option.some.injEq] at hy
      subst hy
      rw [hqs]
      exact ⟨hall current (List.mem_cons_self _ _), lt_of_not_le h⟩

theorem mergeLoop_gap_id :
    ∀ (rest : List CodeSnippet) (p : CodeSnippet),
      List.Chain' (fun a b => a.EndLine + adjacencyBuffer < b.StartLine) (p :: rest) →
      mergeLoop p rest = p :: rest := by
  intro rest
  induction rest with
  | nil => intro p _; rfl
  | cons current rest ih =>
    intro p hc
    rw [List.chain'_cons] at hc
    rw [mergeLoop, if_neg (not_le_of_lt hc.1), ih current hc.2]

theorem perm_len_le_one_eq :
    ∀ {l1 l2 : List CodeSnippet}, l1.Perm l2 → l1.length ≤ 1 → l1 = l2 := by
  intro l1 l2 h hl
  cases l1 with
  | nil => exact (h.symm.eq_nil).symm
  | cons a t =>
    cases t with
    | cons x xs => simp at hl
    | nil =>
      have hlen := h.length_eq
      cases l2 with
      | nil => simp at hlen
      | cons b t2 =>
        cases t2 with
        | cons y ys => simp at hlen
        | nil =>
          have ha : a ∈ [b] := h.subset (List.mem_cons_self _ _)
          simp only [List.mem_singleton] at ha
          rw [ha]

theorem sorted_perm_distinct_eq :
    ∀ {l1 l2 : List CodeSnippet}, l1.Perm l2 → l1.Sorted snipLE → l2.Sorted snipLE →
      l1.Pairwise (fun a b => a.StartLine ≠ b.StartLine) → l1 = l2 := by
  intro l1
  induction l1 with
  | nil =>
    intro l2 h _ _ _
    exact (h.symm.eq_nil).symm
  | cons a t1 ih =>
    intro l2 h hs1 hs2 hd
    cases l2 with
    | nil =>
      have := h.eq_nil
      simp at this
    | cons b t2 =>
      have hab : a = b := by
        by_contra hne
        have ha2 : a ∈ b :: t2 := h.subset (List.mem_cons_self _ _)
        have hb1 : b ∈ a :: t1 := h.symm.subset (List.mem_cons_self _ _)
        rcases List.mem_cons.mp ha2 with h1 | h1
        · exact hne h1
        rcases List.mem_cons.mp hb1 with h2 | h2
        · exact hne h2.symm
        have hle1 : a.StartLine ≤ b.StartLine := List.rel_of_sorted_cons hs1 b h2
        have hle2 : b.StartLine ≤ a.StartLine := List.rel_of_sorted_cons hs2 a h1
        exact (List.pairwise_cons.mp hd).1 b h2 (le_antisymm hle1 hle2)
      subst hab
      rw [ih h.cons_inv hs1.of_cons hs2.of_cons (List.pairwise_cons.mp hd).2]

/-- C4: for every input snippet list, the output of `mergeOverlappingSnippets`
is sorted by start line and every pair of consecutive output snippets is
separated by strictly more than the 3-line adjacency buffer
(`later.StartLine > earlier.EndLine + 3`). -/
theorem mergeOverlappingSnippets_sorted_gaps (snippets : List CodeSnippet) :
    mergedOrdered (mergeOverlappingSnippets snippets) := by
  unfold mergeOverlappingSnippets
  split
  · rename_i hlen
    match snippets, hlen with
    | [], _ => exact List.chain'_nil
    | [a], _ => exact List.chain'_singleton _
    | a :: b :: t, h => simp at h
  · cases hsort : List.insertionSort snipLE snippets with
    | nil => exact List.chain'_nil
    | cons s rest =>
      have hsorted := List.sorted_insertionSort snipLE snippets
      rw [hsort, List.sorted_cons] at hsorted
      exact mergeLoop_chain rest s hsorted.1 hsorted.2

/-- C7: merging is idempotent on already-merged output: if a snippet sequence
is sorted by start line and consecutive snippets are separated by more than
the 3-line adjacency buffer, `mergeOverlappingSnippets` returns it
unchanged. -/
theorem mergeOverlappingSnippets_idempotent (l : List CodeSnippet)
    (hs : l.Sorted snipLE)
    (hgap : List.Chain' (fun a b => a.EndLine + adjacencyBuffer < b.StartLine) l) :
    mergeOverlappingSnippets l = l := by
  unfold mergeOverlappingSnippets
  split
  · rfl
  · rw [hs.insertionSort_eq]
    cases l with
    | nil => rfl
    | cons s rest => exact mergeLoop_gap_id rest s hgap

/-- Witness for C7: a concrete already-merged list is returned unchanged. -/
theorem mergeOverlappingSnippets_idempotent_witness :
    mergeOverlappingSnippets
        [⟨1, 2, "a", "m"⟩, ⟨10, 11, "b", "n"⟩] =
      [⟨1, 2, "a", "m"⟩, ⟨10, 11, "b", "n"⟩] :=
  mergeOverlappingSnippets_idempotent _
    (by simp [List.sorted_cons, snipLE])
    (by rw [List.chain'_pair]; decide)

/-- C3 counterexample: two permutations of the same two-snippet set (equal
start lines, different end lines and contents) produce outputs with different
content strings, so merging is not invariant under arbitrary permutations of
the input. -/
theorem mergeOverlappingSnippets_not_perm_invariant :
    (mergeOverlappingSnippets
        [⟨1, 2, "a\nb", "m1"⟩, ⟨1, 3, "x\ny\nz", "m2"⟩]).map CodeSnippet.Content ≠
      (mergeOverlappingSnippets
        [⟨1, 3, "x\ny\nz", "m2"⟩, ⟨1, 2, "a\nb", "m1"⟩]).map CodeSnippet.Content := by
  decide

/-- C3 (amended): merging is invariant under permutations of the input as
long as the snippets have pairwise distinct start lines (the counterexample
above needs two snippets sharing a start line). -/
theorem mergeOverlappingSnippets_perm_invariant (l1 l2 : List CodeSnippet)
    (hp : l1.Perm l2)
    (hd : l1.Pairwise (fun a b => a.StartLine ≠ b.StartLine)) :
    mergeOverlappingSnippets l1 = mergeOverlappingSnippets l2 := by
  by_cases hlen : l1.length ≤ 1
  · rw [perm_len_le_one_eq hp hlen]
  · have hsortseq : List.insertionSort snipLE l1 = List.insertionSort snipLE l2 := by
      apply sorted_perm_distinct_eq
      · exact (List.perm_insertionSort snipLE l1).trans
          (hp.trans (List.perm_insertionSort snipLE l2).symm)
      · exact List.sorted_insertionSort snipLE l1
      · exact List.sorted_insertionSort snipLE l2
      · exact ((List.perm_insertionSort snipLE l1).pairwise_iff
          (fun hab => Ne.symm hab)).mpr hd
    unfold mergeOverlappingSnippets
    rw [if_neg hlen, if_neg (by rw [← hp.length_eq]; exact hlen), hsortseq]

/-- Witness for the amended C3: two concrete permutations of a
distinct-start-line snippet set merge to the same output. -/
theorem mergeOverlappingSnippets_perm_invariant_witness :
    mergeOverlappingSnippets [⟨5, 6, "a", "m"⟩, ⟨1, 2, "b", "n"⟩] =
      mergeOverlappingSnippets [⟨1, 2, "b", "n"⟩, ⟨5, 6, "a", "m"⟩] :=
  mergeOverlappingSnippets_perm_invariant _ _
    (List.Perm.swap _ _ _) (by simp [List.pairwise_cons])

/-! ### Data model of `internal/output/formatter.go` -/

/-- Embedding of `output.formattingSnippet`. -/
structure formattingSnippet where
  StartLine : Int
  EndLine : Int
  Content : String
  Language : String
  Path : String
deriving DecidableEq, Repr

/-- Comparison used by the `sort.Slice` call in `mergeFormattingSnippets`. -/
def fmtLE (a b : formattingSnippet) : Prop := a.StartLine ≤ b.StartLine

instance : DecidableRel fmtLE := fun _ _ => Int.decLe _ _

instance : IsTotal formattingSnippet fmtLE := ⟨fun _ _ => Int.le_total _ _⟩

instance : IsTrans formattingSnippet fmtLE := ⟨fun _ _ _ h1 h2 => le_trans h1 h2⟩

/-- The fold of `mergeFormattingSnippets` over the sorted snippet list
(formatter.go lines 86-130).  The Go test
`float64(overlap) >= float64(smallerRange)*0.5` compares integers scaled by
an exactly-representable factor 0.5, so it is embedded as
`2 * overlap ≥ smallerRange`.  In the third branch the Go code updates
`previous.EndLine` before computing `linesToAdd`, so `linesToAdd` is always
0 there; the embedding keeps that order. -/
def mergeFormattingLoop (previous : formattingSnippet) :
    List formattingSnippet → List formattingSnippet
  | [] => [previous]
  | current :: rest =>
    let overlap := min previous.EndLine current.EndLine -
      max previous.StartLine current.StartLine
    let smallerRange := min (previous.EndLine - previous.StartLine)
      (current.EndLine - current.StartLine)
    if overlap > 0 ∧ 2 * overlap ≥ smallerRange then
      mergeFormattingLoop
        { previous with
            StartLine := min previous.StartLine current.StartLine
            EndLine := max previous.EndLine current.EndLine
            Content :=
              if current.EndLine - current.StartLine ≥
                  previous.EndLine - previous.StartLine then
                current.Content
              else previous.Content } rest
    else if current.StartLine > previous.EndLine then
      previous :: mergeFormattingLoop current rest
    else if current.EndLine > previous.EndLine then
      let previous := { previous with EndLine := current.EndLine }
      let linesPrevious := splitOnStr previous.Content "\n"
      let linesCurrent := splitOnStr current.Content "\n"
      let linesToAdd := current.EndLine - previous.EndLine
      let previous :=
        if (linesCurrent.length : Int) ≥ linesToAdd then
          { previous with
              Content := String.intercalate "\n"
                (linesPrevious ++
                  linesCurrent.drop (linesCurrent.length - linesToAdd.toNat)) }
        else previous
      mergeFormattingLoop previous rest
    else
      mergeFormattingLoop previous rest

/-- Embedding of `output.mergeFormattingSnippets` (formatter.go lines
75-133). -/
def mergeFormattingSnippets (snippets : List formattingSnippet) :
    List formattingSnippet :=
  if snippets.length ≤ 1 then snippets
  else
    match List.insertionSort fmtLE snippets with
    | [] => []
    | s :: rest => mergeFormattingLoop s rest

/-- C6: in the formatting merge pass, the two snippets with inclusive ranges
[5,10] and [9,15] from one file merge into a single snippet with range
[5,15], whatever their contents are. -/
theorem mergeFormattingSnippets_merges_5_10_9_15
    (c1 c2 lang1 lang2 path1 path2 : String) :
    (mergeFormattingSnippets
        [⟨5, 10, c1, lang1, path1⟩, ⟨9, 15, c2, lang2, path2⟩]).map
      (fun s => (s.StartLine, s.EndLine)) = [(5, 15)] := by
  simp only [mergeFormattingSnippets, List.insertionSort, List.orderedInsert]
  norm_num [fmtLE, mergeFormattingLoop]

/-! ### Fuzzy search (`searchInFile`, part_005 lines 125-135)

`searchInFile` builds the pattern
`"(?i)" ++ strings.Join(strings.Split(pattern, ""), ".*")` and tests each
line with `regexp.MatchString`.  The embedding below denotes that compiled
regular expression for pattern characters that compile to a single regex
atom: `.` becomes the any-character class, and letters, digits, space and
underscore become case-insensitive literals (Go `(?i)` folds ASCII case).
`fuzzyMatch` is the standard denotation of the unanchored pattern
`a1 .* a2 .* … .* an`: the atoms must occur in order with arbitrary gaps. -/

/-- One regex atom of the compiled fuzzy pattern. -/
inductive FuzzyAtom where
  | lit (c : Char)
  | anyChar
deriving DecidableEq, Repr

/-- Atoms denoted by `"(?i)" ++ join(split(pattern, ""), ".*")`. -/
def fuzzyAtoms (pattern : String) : List FuzzyAtom :=
  pattern.toList.map (fun c => if c = '.' then FuzzyAtom.anyChar else FuzzyAtom.lit c)

/-- A single atom against a single character (case-insensitively for
literals, per the `(?i)` flag). -/
def atomMatches : FuzzyAtom → Char → Bool
  | FuzzyAtom.anyChar, _ => true
  | FuzzyAtom.lit c, ch => ch.toLower == c.toLower

/-- Denotation of `regexp.MatchString` for the unanchored atom sequence. -/
def fuzzyMatch : List FuzzyAtom → List Char → Bool
  | [], _ => true
  | _ :: _, [] => false
  | a :: as, c :: cs => (atomMatches a c && fuzzyMatch as cs) || fuzzyMatch (a :: as) cs

/-- Whether a line matches the fuzzy transformation of `pattern` in
`searchInFile`'s fuzzy mode. -/
def searchLineMatchesFuzzy (pattern line : String) : Bool :=
  fuzzyMatch (fuzzyAtoms pattern) line.toList

/-- Characters that the fuzzy transformation keeps as literal regex
atoms. -/
def isRegexLiteralChar (c : Char) : Bool :=
  c.isAlphanum || c = ' ' || c = '_'

theorem cons_sublist_cons_iff_cases {α : Type} {x y : α} {xs ys : List α} :
    (x :: xs).Sublist (y :: ys) ↔ (x = y ∧ xs.Sublist ys) ∨ (x :: xs).Sublist ys := by
  constructor
  · intro h
    cases h with
    | cons _ h => exact Or.inr h
    | cons₂ _ h => exact Or.inl ⟨rfl, h⟩
  · rintro (⟨rfl, h⟩ | h)
    · exact h.cons₂ _
    · exact h.cons _

theorem fuzzyMatch_lit_iff :
    ∀ (l p : List Char),
      fuzzyMatch (p.map FuzzyAtom.lit) l = true ↔
        (p.map Char.toLower).Sublist (l.map Char.toLower) := by
  intro l
  induction l with
  | nil =>
    intro p
    cases p with
    | nil => simp [fuzzyMatch]
    | cons a as => simp [fuzzyMatch]
  | cons c cs ih =>
    intro p
    cases p with
    | nil => simp [fuzzyMatch]
    | cons a as =>
      rw [List.map_cons, List.map_cons, List.map_cons, cons_sublist_cons_iff_cases]
      rw [show fuzzyMatch (FuzzyAtom.lit a :: as.map FuzzyAtom.lit) (c :: cs) =
        ((atomMatches (FuzzyAtom.lit a) c && fuzzyMatch (as.map FuzzyAtom.lit) cs) ||
          fuzzyMatch (FuzzyAtom.lit a :: as.map FuzzyAtom.lit) cs) from rfl]
      rw [show FuzzyAtom.lit a :: as.map FuzzyAtom.lit = (a :: as).map FuzzyAtom.lit from rfl]
      rw [Bool.or_eq_true, Bool.and_eq_true, ih as, ih (a :: as)]
      simp only [atomMatches, beq_iff_eq, List.map_cons]
      constructor
      · rintro (⟨hca, h⟩ | h)
        · exact Or.inl ⟨hca.symm, h⟩
        · exact Or.inr h
      · rintro (⟨hac, h⟩ | h)
        · exact Or.inl ⟨hac.symm, h⟩
        · exact Or.inr h

/-- C5 counterexample: the pattern `"."` matches the line `"x"` in fuzzy
mode even though `'.'` does not occur in the line at all — the fuzzy
transformation keeps regex metacharacters special, so matching is not a
subsequence test for such patterns. -/
theorem fuzzy_metachar_counterexample :
    searchLineMatchesFuzzy "." "x" = true ∧
      ¬ (String.toList "." |>.map Char.toLower).Sublist
          (String.toList "x" |>.map Char.toLower) := by
  constructor
  · rfl
  · decide

/-- C5 (amended): for every search pattern made only of characters without
special regex meaning (letters, digits, space, underscore) and every line,
fuzzy mode matches the line exactly when the pattern's characters appear in
the line in order, case-insensitively, with arbitrary gaps (a subsequence
match). -/
theorem fuzzy_mode_is_subsequence_match (pattern line : String)
    (h : ∀ c ∈ pattern.toList, isRegexLiteralChar c = true) :
    searchLineMatchesFuzzy pattern line = true ↔
      (pattern.toList.map Char.toLower).Sublist (line.toList.map Char.toLower) := by
  have hatoms : fuzzyAtoms pattern = pattern.toList.map FuzzyAtom.lit := by
    apply List.map_congr_left
    intro c hc
    have hlit := h c hc
    have : c ≠ '.' := by
      intro hdot
      rw [hdot] at hlit
      simp [isRegexLiteralChar, Char.isAlphanum, Char.isAlpha, Char.isUpper,
        Char.isLower, Char.isDigit] at hlit
    simp [this]
  rw [searchLineMatchesFuzzy, hatoms, fuzzyMatch_lit_iff]

/-- Witness for the amended C5: the pattern `"fB"` matches the line
`"func Bar()"` as a case-insensitive subsequence. -/
theorem fuzzy_mode_is_subsequence_match_witness :
    (∀ c ∈ String.toList "fB", isRegexLiteralChar c = true) ∧
      (searchLineMatchesFuzzy "fB" "func Bar()" = true ↔
        ((String.toList "fB").map Char.toLower).Sublist
          ((String.toList "func Bar()").map Char.toLower)) :=
  ⟨by decide, fuzzy_mode_is_subsequence_match "fB" "func Bar()" (by decide)⟩

/-! ### Function bounds and snippet extraction (part_005 lines 154-210) -/

/-- Embedding of the backward scan of `findFunctionBounds` (lines 186-192):
from index `s` walk down while the line does not contain `"func "` or
`"function "`; stop at index 0 without examining line 0 (as the Go loop
condition `start > 0` does). -/
def findStartNat (lines : List String) : Nat → Nat
  | 0 => 0
  | s + 1 =>
    if containsSubstr (lines.getD (s + 1) "") "func " ||
        containsSubstr (lines.getD (s + 1) "") "function " then s + 1
    else findStartNat lines s

/-- Embedding of the forward brace scan of `findFunctionBounds` (lines
194-203): `i` is the index of the head of the remaining line list, `bc` the
running brace count; the result is the Go `end` variable, which keeps its
zero value when the loop finishes without breaking. -/
def scanEndLoop (matchLine : Int) : List String → Int → Int → Int
  | [], _, _ => 0
  | line :: rest, i, bc =>
    let bc := bc + countSubstr line '{' - countSubstr line '}'
    if bc ≤ 0 ∧ i > matchLine then i
    else scanEndLoop matchLine rest (i + 1) bc

/-- Embedding of `search.findFunctionBounds` (lines 181-210).  The backward
scan runs on `Nat` indices; a non-positive `matchLine` is left untouched by
the Go loop, which the first branch reproduces. -/
def findFunctionBounds (lines : List String) (matchLine : Int) : Int × Int :=
  let start : Int :=
    if matchLine ≤ 0 then matchLine
    else (findStartNat lines matchLine.toNat : Int)
  let e := scanEndLoop matchLine (lines.drop start.toNat) start 0
  let e := if e = 0 then min ((lines.length : Int) - 1) (start + 20) else e
  (start, e)

/-- Embedding of the context-lines fallback of `extractSnippet` (lines
169-177). -/
def contextSnippet (lines : List String) (matchLine : Int) (opts : Options) :
    CodeSnippet :=
  let start := max 0 (matchLine - opts.ContextLines)
  let e := min ((lines.length : Int) - 1) (matchLine + opts.ContextLines)
  { StartLine := start + 1
    EndLine := e + 1
    Content := String.intercalate "\n" ((lines.drop start.toNat).take (e + 1 - start).toNat)
    MatchInfo := "Match at line " ++ toString (matchLine + 1) }

/-- Embedding of `search.extractSnippet` (lines 154-178); the slice
`lines[start:end+1]` is embedded by drop/take. -/
def extractSnippet (lines : List String) (matchLine : Int) (opts : Options) :
    CodeSnippet :=
  if opts.EntireFunction then
    let b := findFunctionBounds lines matchLine
    if b.1 ≠ -1 ∧ b.2 ≠ -1 then
      { StartLine := b.1 + 1
        EndLine := b.2 + 1
        Content := String.intercalate "\n"
          ((lines.drop b.1.toNat).take (b.2 + 1 - b.1).toNat)
        MatchInfo := "Function containing match at line " ++ toString (matchLine + 1) }
    else contextSnippet lines matchLine opts
  else contextSnippet lines matchLine opts

theorem findStartNat_le (lines : List String) : ∀ s, findStartNat lines s ≤ s := by
  intro s
  induction s with
  | zero => exact le_refl _
  | succ n ih =>
    rw [findStartNat]
    split
    · exact le_refl _
    · exact le_trans ih (Nat.le_succ n)

theorem scanEndLoop_cases (matchLine : Int) :
    ∀ (rest : List String) (i bc : Int),
      scanEndLoop matchLine rest i bc = 0 ∨
        (i ≤ scanEndLoop matchLine rest i bc ∧
          scanEndLoop matchLine rest i bc < i + rest.length ∧
          matchLine < scanEndLoop matchLine rest i bc) := by
  intro rest
  induction rest with
  | nil => intro i bc; exact Or.inl rfl
  | cons line rest ih =>
    intro i bc
    rw [scanEndLoop]
    split
    · rename_i hcond
      right
      refine ⟨le_refl _, ?_, hcond.2⟩
      have : (0 : Int) < ((line :: rest).length : Int) := by
        simp only [List.length_cons]
        omega
      omega
    · rcases ih (i + 1) (bc + countSubstr line '{' - countSubstr line '}') with h | ⟨h1, h2, h3⟩
      · exact Or.inl h
      · right
        refine ⟨by omega, ?_, h3⟩
        simp only [List.length_cons] at *
        omega

/-- C10: for a nonempty line list and an in-range match line,
`findFunctionBounds` returns bounds with `0 ≤ start ≤ end ≤ last index` and
never `-1`; consequently, in whole-function mode `extractSnippet` always
takes the function-bounds branch (the context-lines fallback is
unreachable) and the returned snippet satisfies
`1 ≤ StartLine ≤ EndLine`. -/
theorem findFunctionBounds_in_range (lines : List String) (matchLine : Int)
    (opts : Options)
    (h0 : 0 ≤ matchLine) (hlt : matchLine < (lines.length : Int))
    (hEF : opts.EntireFunction = true) :
    0 ≤ (findFunctionBounds lines matchLine).1 ∧
      (findFunctionBounds lines matchLine).1 ≠ -1 ∧
      (findFunctionBounds lines matchLine).2 ≠ -1 ∧
      (findFunctionBounds lines matchLine).1 ≤ (findFunctionBounds lines matchLine).2 ∧
      (findFunctionBounds lines matchLine).2 ≤ (lines.length : Int) - 1 ∧
      extractSnippet lines matchLine opts =
        { StartLine := (findFunctionBounds lines matchLine).1 + 1
          EndLine := (findFunctionBounds lines matchLine).2 + 1
          Content := String.intercalate "\n"
            ((lines.drop (findFunctionBounds lines matchLine).1.toNat).take
              ((findFunctionBounds lines matchLine).2 + 1 -
                (findFunctionBounds lines matchLine).1).toNat)
          MatchInfo := "Function containing match at line " ++ toString (matchLine + 1) } ∧
      1 ≤ (extractSnippet lines matchLine opts).StartLine ∧
      (extractSnippet lines matchLine opts).StartLine ≤
        (extractSnippet lines matchLine opts).EndLine := by
  have hstart : 0 ≤ (findFunctionBounds lines matchLine).1 ∧
      (findFunctionBounds lines matchLine).1 ≤ matchLine := by
    have hstartv : (findFunctionBounds lines matchLine).1 =
        (if matchLine ≤ 0 then matchLine
          else (findStartNat lines matchLine.toNat : Int)) := rfl
    rw [hstartv]
    split
    · constructor <;> omega
    · have hle := findStartNat_le lines matchLine.toNat
      constructor <;> omega
  have hbounds : (findFunctionBounds lines matchLine).1 ≤
      (findFunctionBounds lines matchLine).2 ∧
      (findFunctionBounds lines matchLine).2 ≤ (lines.length : Int) - 1 := by
    obtain ⟨hs0, hsm⟩ := hstart
    have hstartv : (findFunctionBounds lines matchLine).1 =
        (if matchLine ≤ 0 then matchLine
          else (findStartNat lines matchLine.toNat : Int)) := rfl
    set start : Int :=
      (if matchLine ≤ 0 then matchLine
        else (findStartNat lines matchLine.toNat : Int)) with hstartdef
    rw [hstartv] at hs0 hsm
    have hdroplen : ((lines.drop start.toNat).length : Int) =
        (lines.length : Int) - start := by
      rw [List.length_drop]
      omega
    have hsnd : (findFunctionBounds lines matchLine).2 =
        (if scanEndLoop matchLine (lines.drop start.toNat) start 0 = 0 then
          min ((lines.length : Int) - 1) (start + 20)
        else scanEndLoop matchLine (lines.drop start.toNat) start 0) := rfl
    rw [hstartv, hsnd]
    by_cases hz : scanEndLoop matchLine (lines.drop start.toNat) start 0 = 0
    · rw [if_pos hz]
      constructor
      · apply le_min <;> omega
      · exact min_le_left _ _
    · rw [if_neg hz]
      rcases scanEndLoop_cases matchLine (lines.drop start.toNat) start 0 with h | ⟨h1, h2, h3⟩
      · exact absurd h hz
      · rw [hdroplen] at h2
        constructor <;> omega
  obtain ⟨hs0, hsm⟩ := hstart
  obtain ⟨hse, hel⟩ := hbounds
  have hne1 : (findFunctionBounds lines matchLine).1 ≠ -1 := by omega
  have hne2 : (findFunctionBounds lines matchLine).2 ≠ -1 := by omega
  have hext : extractSnippet lines matchLine opts =
      { StartLine := (findFunctionBounds lines matchLine).1 + 1
        EndLine := (findFunctionBounds lines matchLine).2 + 1
        Content := String.intercalate "\n"
          ((lines.drop (findFunctionBounds lines matchLine).1.toNat).take
            ((findFunctionBounds lines matchLine).2 + 1 -
              (findFunctionBounds lines matchLine).1).toNat)
        MatchInfo := "Function containing match at line " ++ toString (matchLine + 1) } := by
    rw [extractSnippet, if_pos hEF, if_pos ⟨hne1, hne2⟩]
  refine ⟨hs0, hne1, hne2, hse, hel, hext, ?_, ?_⟩
  · rw [hext]; dsimp only; omega
  · rw [hext]; dsimp only; omega

/-- Witness for C10 at a concrete file: three lines forming one Go function
with the match on the middle line. -/
theorem findFunctionBounds_in_range_witness :
    ((0 : Int) ≤ 1 ∧ (1 : Int) < ((["func f() \x7b", "x", "\x7d"].length : Nat) : Int)) ∧
      (0 ≤ (findFunctionBounds ["func f() \x7b", "x", "\x7d"] 1).1 ∧
        (findFunctionBounds ["func f() \x7b", "x", "\x7d"] 1).1 ≠ -1 ∧
        (findFunctionBounds ["func f() \x7b", "x", "\x7d"] 1).2 ≠ -1 ∧
        (findFunctionBounds ["func f() \x7b", "x", "\x7d"] 1).1 ≤
          (findFunctionBounds ["func f() \x7b", "x", "\x7d"] 1).2 ∧
        (findFunctionBounds ["func f() \x7b", "x", "\x7d"] 1).2 ≤
          ((["func f() \x7b", "x", "\x7d"].length : Nat) : Int) - 1 ∧
        extractSnippet ["func f() \x7b", "x", "\x7d"] 1 ⟨0, true, false⟩ =
          { StartLine := (findFunctionBounds ["func f() \x7b", "x", "\x7d"] 1).1 + 1
            EndLine := (findFunctionBounds ["func f() \x7b", "x", "\x7d"] 1).2 + 1
            Content := String.intercalate "\n"
              ((["func f() \x7b", "x", "\x7d"].drop
                  (findFunctionBounds ["func f() \x7b", "x", "\x7d"] 1).1.toNat).take
                ((findFunctionBounds ["func f() \x7b", "x", "\x7d"] 1).2 + 1 -
                  (findFunctionBounds ["func f() \x7b", "x", "\x7d"] 1).1).toNat)
            MatchInfo := "Function containing match at line " ++ toString ((1 : Int) + 1) } ∧
        1 ≤ (extractSnippet ["func f() \x7b", "x", "\x7d"] 1 ⟨0, true, false⟩).StartLine ∧
        (extractSnippet ["func f() \x7b", "x", "\x7d"] 1 ⟨0, true, false⟩).StartLine ≤
          (extractSnippet ["func f() \x7b", "x", "\x7d"] 1 ⟨0, true, false⟩).EndLine) :=
  ⟨⟨by decide, by decide⟩,
    findFunctionBounds_in_range ["func f() \x7b", "x", "\x7d"] 1 ⟨0, true, false⟩
      (by decide) (by decide) rfl⟩

/-! ### Parameter and return-type parsing (`internal/finder`, part_003
lines 554-780) -/

/-- Embedding of `finder.ParameterInfo`. -/
structure ParameterInfo where
  Name : String
  «Type» : String
deriving DecidableEq, Repr

/-- Embedding of Go `strings.SplitN s sep 2`: split at the first occurrence
only. -/
def splitN2 (s sep : String) : List String :=
  match splitOnStr s sep with
  | [] => []
  | x :: rest => if rest.isEmpty then [x] else [x, String.intercalate sep rest]

/-- Worker for `splitParamsRespectingBrackets` (part_003 lines 726-751):
walk the characters tracking bracket depth, cutting at top-level commas;
`cur` holds the current piece in reverse. -/
def splitParamsLoop : List Char → Int → List Char → List String
  | [], _, cur => if cur.isEmpty then [] else [String.mk cur.reverse]
  | c :: t, depth, cur =>
    if c = '<' ∨ c = '(' ∨ c = '[' ∨ c = Char.ofNat 123 then
      splitParamsLoop t (depth + 1) (c :: cur)
    else if c = '>' ∨ c = ')' ∨ c = ']' ∨ c = Char.ofNat 125 then
      splitParamsLoop t (depth - 1) (c :: cur)
    else if c = ',' ∧ depth = 0 then
      String.mk cur.reverse :: splitParamsLoop t depth []
    else
      splitParamsLoop t depth (c :: cur)

/-- Embedding of `finder.splitParamsRespectingBrackets`.  The Go function
slices between top-level commas and appends the tail only when nonempty;
the worker reproduces that (an empty trailing piece is dropped, empty
middle pieces are kept). -/
def splitParamsRespectingBrackets (paramStr : String) : List String :=
  splitParamsLoop paramStr.toList 0 []

/-- One group of the `"go"` branch of `parseParametersWithTypes` (part_003
lines 567-607). -/
def parseGoParamGroup (params : List ParameterInfo) (group : String) :
    List ParameterInfo :=
  let group := trimSpace group
  if group = "" then params
  else
    let parts := fields group
    if parts.length ≥ 2 then
      let paramType := parts.getLastD ""
      if parts.length > 2 || containsSubstr (parts.headD "") "," then
        let nameList := String.intercalate " " parts.dropLast
        let names := splitOnStr nameList ","
        names.foldl (fun acc name =>
          let name := trimSpace name
          if name ≠ "" then acc ++ [⟨name, paramType⟩] else acc) params
      else
        params ++ [⟨parts.headD "", paramType⟩]
    else if parts.length = 1 then
      params ++ [⟨"", parts.headD ""⟩]
    else params

/-- One group of the `"python"` branch (lines 615-655). -/
def parsePythonParamGroup (params : List ParameterInfo) (group : String) :
    List ParameterInfo :=
  let group := trimSpace group
  if group = "" then params
  else if containsSubstr group ":" then
    let parts := splitN2 group ":"
    let paramName := trimSpace (parts.headD "")
    let paramType := if parts.length > 1 then trimSpace (parts.getLastD "") else ""
    let paramName :=
      if containsSubstr paramName "=" then
        trimSpace ((splitN2 paramName "=").headD "")
      else paramName
    params ++ [⟨paramName, paramType⟩]
  else
    let paramName := group
    let paramName :=
      if containsSubstr paramName "=" then
        trimSpace ((splitN2 paramName "=").headD "")
      else paramName
    params ++ [⟨paramName, ""⟩]

/-- One group of the `"javascript"`/`"typescript"` branch (lines 663-688). -/
def parseJsParamGroup (params : List ParameterInfo) (group : String) :
    List ParameterInfo :=
  let group := trimSpace group
  if group = "" then params
  else if containsSubstr group ":" then
    let parts := splitN2 group ":"
    let paramName := trimSpace (parts.headD "")
    let paramType := if parts.length > 1 then trimSpace (parts.getLastD "") else ""
    params ++ [⟨paramName, paramType⟩]
  else
    params ++ [⟨group, ""⟩]

/-- One piece of the generic fallback branch (lines 696-720); note the
fallback splits on plain commas, not with the bracket-aware splitter. -/
def parseDefaultParamGroup (params : List ParameterInfo) (p : String) :
    List ParameterInfo :=
  let p := trimSpace p
  if p = "" then params
  else
    let parts := fields p
    if parts.length ≥ 2 then
      params ++ [⟨String.intercalate " " parts.dropLast, parts.getLastD ""⟩]
    else if parts.length = 1 then
      params ++ [⟨parts.headD "", ""⟩]
    else params

/-- Embedding of `finder.parseParametersWithTypes` (part_003 lines
555-723). -/
def parseParametersWithTypes (paramStr language : String) : List ParameterInfo :=
  if trimSpace paramStr = "" then []
  else if language = "go" then
    (splitParamsRespectingBrackets paramStr).foldl parseGoParamGroup []
  else if language = "python" then
    (splitParamsRespectingBrackets paramStr).foldl parsePythonParamGroup []
  else if language = "javascript" ∨ language = "typescript" then
    (splitParamsRespectingBrackets paramStr).foldl parseJsParamGroup []
  else
    (splitOnStr paramStr ",").foldl parseDefaultParamGroup []

/-- Embedding of `finder.parseReturnTypes` (part_003 lines 754-780). -/
def parseReturnTypes (returnStr language : String) : List String :=
  let returnStr := trimSpace returnStr
  if returnStr = "" then []
  else if language = "go" then
    if startsWithStr returnStr "(" ∧
        listStartsWith returnStr.toList.reverse [')'] then
      let inner := String.mk (returnStr.toList.drop 1).dropLast
      (splitOnStr inner ",").map trimSpace
    else [returnStr]
  else [returnStr]

/-- C1 (evaluation at the failing input): on the Go parameter string
`"a, b int"` the parameter splitter does not produce the two shared-type
parameters `[a int, b int]` that the code's own comments ("Handle Go's
name1, name2 type format") and the spec describe.  The bracket-aware
pre-split already cuts at the top-level comma, so the group `"a"` is
treated as an unnamed parameter of type `"a"`. -/
theorem parseParametersWithTypes_a_b_int :
    parseParametersWithTypes "a, b int" "go" = [⟨"", "a"⟩, ⟨"b", "int"⟩] ∧
      parseParametersWithTypes "a, b int" "go" ≠ [⟨"a", "int"⟩, ⟨"b", "int"⟩] := by
  constructor
  · rfl
  · decide

/-! ### A small regular-expression engine

The rule registry of `internal/finder` (part_003 lines 66-320) holds Go
`regexp` patterns and applies them with `FindStringSubmatch`, which uses
leftmost-first (Perl-preference) semantics.  The engine below interprets a
regex syntax tree with exactly those semantics: a backtracking matcher in
continuation-passing style, with greedy/lazy quantifiers, left-preferring
alternation and capture groups.  `fuel` bounds the recursion depth; every
pattern used here consumes at least one character per quantifier iteration,
so a fuel linear in the input length is sufficient and the bound is never
hit on the inputs evaluated in this file. -/

/-- Regex syntax trees. -/
inductive RE where
  | eps
  | cls (p : Char → Bool)
  | seq (a b : RE)
  | alt (a b : RE)
  | opt (a : RE) (greedy : Bool)
  | star (a : RE) (greedy : Bool)
  | group (idx : Nat) (a : RE)

/-- Backtracking matcher.  `caps` accumulates `(group index, captured
characters)`; `k` is the continuation receiving the remaining input. -/
def reM : Nat → RE → List Char → List (Nat × List Char) →
    (List Char → List (Nat × List Char) → Option (List Char × List (Nat × List Char))) →
    Option (List Char × List (Nat × List Char))
  | 0, _, _, _, _ => none
  | fuel + 1, r, cs, caps, k =>
    match r with
    | .eps => k cs caps
    | .cls p =>
      match cs with
      | [] => none
      | c :: rest => if p c then k rest caps else none
    | .seq a b => reM fuel a cs caps (fun cs1 caps1 => reM fuel b cs1 caps1 k)
    | .alt a b =>
      match reM fuel a cs caps k with
      | some res => some res
      | none => reM fuel b cs caps k
    | .opt a greedy =>
      if greedy then
        match reM fuel a cs caps k with
        | some res => some res
        | none => k cs caps
      else
        match k cs caps with
        | some res => some res
        | none => reM fuel a cs caps k
    | .star a greedy =>
      if greedy then
        match reM fuel a cs caps
            (fun cs1 caps1 => reM fuel (.star a greedy) cs1 caps1 k) with
        | some res => some res
        | none => k cs caps
      else
        match k cs caps with
        | some res => some res
        | none =>
          reM fuel a cs caps
            (fun cs1 caps1 => reM fuel (.star a greedy) cs1 caps1 k)
    | .group i a =>
      reM fuel a cs caps (fun cs1 caps1 =>
        k cs1 ((i, cs.take (cs.length - cs1.length)) :: caps1))

/-- Fuel bound used for all matches. -/
def reFuel (cs : List Char) : Nat := 8 * cs.length + 400

/-- Runs `r` at the head of `cs` and returns the remaining input and the
captures of the first (preference-ordered) match. -/
def runFrom (r : RE) (cs : List Char) : Option (List Char × List (Nat × List Char)) :=
  reM (reFuel cs) r cs [] (fun rest caps => some (rest, caps))

/-- A compiled registry pattern: `anchored` for a leading `^`, `boundary`
for a leading `\b`, and the number of capture groups. -/
structure CompiledPattern where
  anchored : Bool
  boundary : Bool
  re : RE
  ngroups : Nat

/-- Is a regex word character (`\w`)? -/
def isWordChar (c : Char) : Bool :=
  c.isAlphanum || c == '_'

/-- Is there a `\b` word boundary just before index `start` of `cs`? -/
def boundaryAt (cs : List Char) (start : Nat) : Bool :=
  let before := match start with
    | 0 => false
    | s + 1 => match cs.get? s with
      | some c => isWordChar c
      | none => false
  let here := match cs.get? start with
    | some c => isWordChar c
    | none => false
  before != here

/-- The capture of group `i`, or `""` when the group did not participate in
the match (as Go's `FindStringSubmatch` yields). -/
def lookupCap (caps : List (Nat × List Char)) (i : Nat) : String :=
  match caps.find? (fun p => p.1 == i) with
  | some p => String.mk p.2
  | none => ""

/-- Embedding of Go `re.FindStringSubmatch(s)`: try each start position
left to right (position 0 only when anchored, word boundaries only when the
pattern starts with `\b`), and return the whole match followed by the
captures of groups `1..ngroups`. -/
def findStringSubmatch (cp : CompiledPattern) (s : String) : Option (List String) :=
  let cs := s.toList
  let tryAt : Nat → Option (List String) := fun start =>
    if cp.boundary && !boundaryAt cs start then none
    else
      let rest := cs.drop start
      match runFrom cp.re rest with
      | none => none
      | some (rem, caps) =>
        some (String.mk (rest.take (rest.length - rem.length)) ::
          (List.range cp.ngroups).map (fun i => lookupCap caps (i + 1)))
  if cp.anchored then tryAt 0
  else (List.range (cs.length + 1)).findSome? tryAt

/-! Character classes and pattern builders used by the registry. -/

/-- Literal character. -/
def rchar (c : Char) : RE := .cls (fun x => x == c)

/-- Literal string. -/
def rstr (s : String) : RE := s.toList.foldr (fun c r => .seq (rchar c) r) .eps

/-- Regex `\s` (RE2: space, tab, newline, form feed, carriage return). -/
def rws : RE :=
  .cls (fun c => c == ' ' || c == '\t' || c == '\n' || c == '\x0c' || c == '\r')

/-- Class `[A-Za-z0-9_]` (also `\w`). -/
def rAlnum : RE := .cls isWordChar

/-- Regex `.` (any character except newline). -/
def rAny : RE := .cls (fun c => !(c == '\n'))

/-- One-or-more. -/
def rplus (r : RE) : RE := .seq r (.star r true)

/-- Sequences a list of regexes. -/
def rcat (rs : List RE) : RE := rs.foldr RE.seq .eps

/-! ### The pattern registry (part_003 lines 11-320) -/

/-- Embedding of `finder.HeaderType`. -/
inductive HeaderType where
  | Function
  | Method
  | Class
  | Interface
  | Variable
  | Constant
  | Import
  | Field
  | Enum
  | Struct
  | Package
  | Namespace
  | Module
  | Define
deriving DecidableEq, Repr

/-- Embedding of `finder.LanguagePattern`; the group-role indices default
to 0 (Go's zero value) exactly as unset fields do in the source literals. -/
structure LanguagePattern where
  ElementType : HeaderType
  Pattern : CompiledPattern
  NameGroup : Nat := 0
  SignatureGroup : Nat := 0
  ScopeGroup : Nat := 0
  ParentGroup : Nat := 0
  ParamsGroup : Nat := 0
  ReturnsGroup : Nat := 0

/-- The `{` character (written via its code point to keep braces out of
literals). -/
def lbraceChar : Char := Char.ofNat 123

/-- Class `[^{]`. -/
def rNotLBrace : RE := .cls (fun c => !(c == lbraceChar))

/-- Class `[A-Za-z0-9_\[\]<>]` of the Go const/var rules. -/
def rGoTypeChar : RE :=
  .cls (fun c => isWordChar c || c == '[' || c == ']' || c == '<' || c == '>')

/-- Class `[A-Za-z0-9_\[\],\s\.]` of the Python return-type rules. -/
def rPyTypeChar : RE :=
  .cls (fun c => isWordChar c || c == '[' || c == ']' || c == ',' ||
    c == ' ' || c == '\t' || c == '\n' || c == '\x0c' || c == '\r' || c == '.')

/-- Class `[A-Za-z0-9_\.]`. -/
def rDotWord : RE := .cls (fun c => isWordChar c || c == '.')

/-- Class `[A-Za-z0-9_<>]` of the Java/C# method rules. -/
def rGenericWord : RE := .cls (fun c => isWordChar c || c == '<' || c == '>')

/-- Class `[A-Za-z0-9_:<>]` of the C++ function rule. -/
def rCppWord : RE :=
  .cls (fun c => isWordChar c || c == ':' || c == '<' || c == '>')

/-- The optional Go return-type suffix `(?:\s+\(?([^{]*)\)?)?` shared by the
Go Function and Method rules, capturing into group `g`. -/
def goReturnSuffix (g : Nat) : RE :=
  .opt (rcat [rplus rws, .opt (rchar '(') true,
    .group g (.star rNotLBrace true), .opt (rchar ')') true]) true

/-- The `"go"` entry of `languagePatternRegistry` (lines 67-108). -/
def goPatterns : List LanguagePattern :=
  [ { ElementType := HeaderType.Function
      Pattern :=
        { anchored := true, boundary := false, ngroups := 3
          re := rcat [rstr "func", rplus rws, .group 1 (rplus rAlnum),
            .star rws true, rchar '(', .group 2 (.star rAny false), rchar ')',
            goReturnSuffix 3] }
      NameGroup := 1, ParamsGroup := 2, ReturnsGroup := 3 }
  , { ElementType := HeaderType.Method
      Pattern :=
        { anchored := true, boundary := false, ngroups := 4
          re := rcat [rstr "func", rplus rws, rchar '(', rplus rAlnum,
            rplus rws, .opt (rchar '*') true, .group 1 (rplus rAlnum),
            rchar ')', rplus rws, .group 2 (rplus rAlnum), .star rws true,
            rchar '(', .group 3 (.star rAny false), rchar ')',
            goReturnSuffix 4] }
      NameGroup := 2, ParentGroup := 1, ParamsGroup := 3, ReturnsGroup := 4 }
  , { ElementType := HeaderType.Struct
      Pattern :=
        { anchored := true, boundary := false, ngroups := 1
          re := rcat [rstr "type", rplus rws, .group 1 (rplus rAlnum),
            rplus rws, rstr "struct", rplus rws, rchar lbraceChar] }
      NameGroup := 1 }
  , { ElementType := HeaderType.Interface
      Pattern :=
        { anchored := true, boundary := false, ngroups := 1
          re := rcat [rstr "type", rplus rws, .group 1 (rplus rAlnum),
            rplus rws, rstr "interface", rplus rws, rchar lbraceChar] }
      NameGroup := 1 }
  , { ElementType := HeaderType.Constant
      Pattern :=
        { anchored := true, boundary := false, ngroups := 3
          re := rcat [rstr "const", rplus rws, .group 1 (rplus rAlnum),
            .opt (rcat [rplus rws, .group 2 (rplus rGoTypeChar)]) true,
            .opt (rcat [.star rws true, rchar '=', .star rws true,
              .group 3 (rplus rAny)]) true] }
      NameGroup := 1 }
  , { ElementType := HeaderType.Variable
      Pattern :=
        { anchored := true, boundary := false, ngroups := 3
          re := rcat [rstr "var", rplus rws, .group 1 (rplus rAlnum),
            .opt (rcat [rplus rws, .group 2 (rplus rGoTypeChar)]) true,
            .opt (rcat [.star rws true, rchar '=', .star rws true,
              .group 3 (rplus rAny)]) true] }
      NameGroup := 1 }
  , { ElementType := HeaderType.Import
      Pattern :=
        { anchored := true, boundary := false, ngroups := 0
          re := rcat [rstr "import", rplus rws, rchar '('] }
      NameGroup := 0 }
  ]

/-- The `"python"` entry (lines 109-142). -/
def pythonPatterns : List LanguagePattern :=
  [ { ElementType := HeaderType.Function
      Pattern :=
        { anchored := true, boundary := false, ngroups := 3
          re := rcat [rstr "def", rplus rws, .group 1 (rplus rAlnum),
            .star rws true, rchar '(', .group 2 (.star rAny false), rchar ')',
            .opt (rcat [.star rws true, rstr "->", .star rws true,
              .group 3 (rplus rPyTypeChar)]) true, rchar ':'] }
      NameGroup := 1, ParamsGroup := 2, ReturnsGroup := 3 }
  , { ElementType := HeaderType.Method
      Pattern :=
        { anchored := true, boundary := false, ngroups := 4
          re := rcat [rplus rws, rstr "def", rplus rws,
            .group 1 (rplus rAlnum), .star rws true, rchar '(',
            .group 2 (.alt (rstr "self") (rstr "cls")),
            .opt (rcat [rchar ',', .star rws true,
              .group 3 (.star rAny false)]) true,
            rchar ')',
            .opt (rcat [.star rws true, rstr "->", .star rws true,
              .group 4 (rplus rPyTypeChar)]) true, rchar ':'] }
      NameGroup := 1, ParamsGroup := 3, ReturnsGroup := 4 }
  , { ElementType := HeaderType.Class
      Pattern :=
        { anchored := true, boundary := false, ngroups := 2
          re := rcat [rstr "class", rplus rws, .group 1 (rplus rAlnum),
            .opt (rcat [rchar '(', .group 2 (.star rAny false), rchar ')']) true,
            rchar ':'] }
      NameGroup := 1, ParamsGroup := 2 }
  , { ElementType := HeaderType.Import
      Pattern :=
        { anchored := true, boundary := false, ngroups := 2
          re := rcat [.opt (rcat [rstr "from", rplus rws,
              .group 1 (rplus rDotWord), rplus rws]) true,
            rstr "import", rplus rws, .group 2 (rplus rAny)] }
      NameGroup := 2, ParentGroup := 1 }
  , { ElementType := HeaderType.Variable
      Pattern :=
        { anchored := true, boundary := false, ngroups := 2
          re := rcat [.group 1 (.seq (.cls (fun c => c.isUpper || c == '_'))
              (.star (.cls (fun c => c.isUpper || c.isDigit || c == '_')) true)),
            .star rws true, rchar '=', .star rws true, .group 2 (rplus rAny)] }
      NameGroup := 1, SignatureGroup := 2 }
  ]

/-- Alternation `(public|private|protected)`. -/
def rScope3 : RE := .alt (rstr "public") (.alt (rstr "private") (rstr "protected"))

/-- Alternation `(public|private|protected|internal)`. -/
def rScope4 : RE :=
  .alt (rstr "public") (.alt (rstr "private") (.alt (rstr "protected") (rstr "internal")))

/-- The `"java"` entry (lines 143-162). -/
def javaPatterns : List LanguagePattern :=
  [ { ElementType := HeaderType.Class
      Pattern :=
        { anchored := false, boundary := true, ngroups := 2
          re := rcat [.opt (.group 1 rScope3) true, rplus rws, rstr "class",
            rplus rws, .group 2 (rplus rAlnum)] }
      NameGroup := 2, ScopeGroup := 1 }
  , { ElementType := HeaderType.Method
      Pattern :=
        { anchored := false, boundary := true, ngroups := 2
          re := rcat [.opt (.group 1 rScope3) true, rplus rws,
            rplus rGenericWord, rplus rws, .group 2 (rplus rAlnum),
            .star rws true, rchar '('] }
      NameGroup := 2, ScopeGroup := 1 }
  , { ElementType := HeaderType.Interface
      Pattern :=
        { anchored := false, boundary := true, ngroups := 2
          re := rcat [.opt (.group 1 rScope3) true, rplus rws,
            rstr "interface", rplus rws, .group 2 (rplus rAlnum)] }
      NameGroup := 2, ScopeGroup := 1 }
  ]

/-- The `"javascript"` entry (lines 163-184). -/
def javascriptPatterns : List LanguagePattern :=
  [ { ElementType := HeaderType.Function
      Pattern :=
        { anchored := false, boundary := false, ngroups := 1
          re := rcat [rstr "function", rplus rws, .group 1 (rplus rAlnum),
            .star rws true, rchar '('] }
      NameGroup := 1 }
  , { ElementType := HeaderType.Variable
      Pattern :=
        { anchored := false, boundary := false, ngroups := 2
          re := rcat [.group 1 (.alt (rstr "const") (.alt (rstr "let") (rstr "var"))),
            rplus rws, .group 2 (rplus rAlnum), .star rws true, rchar '='] }
      NameGroup := 2 }
  , { ElementType := HeaderType.Class
      Pattern :=
        { anchored := false, boundary := false, ngroups := 1
          re := rcat [rstr "class", rplus rws, .group 1 (rplus rAlnum)] }
      NameGroup := 1 }
  , { ElementType := HeaderType.Method
      Pattern :=
        { anchored := false, boundary := true, ngroups := 1
          re := rcat [.group 1 (rplus rAlnum), .star rws true, rchar '(',
            rchar ')', .star rws true, rchar lbraceChar] }
      NameGroup := 1 }
  ]

/-- The `"typescript"` entry (lines 185-206). -/
def typescriptPatterns : List LanguagePattern :=
  [ { ElementType := HeaderType.Function
      Pattern :=
        { anchored := false, boundary := false, ngroups := 1
          re := rcat [rstr "function", rplus rws, .group 1 (rplus rAlnum),
            .star rws true, rchar '('] }
      NameGroup := 1 }
  , { ElementType := HeaderType.Variable
      Pattern :=
        { anchored := false, boundary := false, ngroups := 2
          re := rcat [.group 1 (.alt (rstr "const") (.alt (rstr "let") (rstr "var"))),
            rplus rws, .group 2 (rplus rAlnum), .star rws true, rchar ':'] }
      NameGroup := 2 }
  , { ElementType := HeaderType.Class
      Pattern :=
        { anchored := false, boundary := false, ngroups := 1
          re := rcat [rstr "class", rplus rws, .group 1 (rplus rAlnum)] }
      NameGroup := 1 }
  , { ElementType := HeaderType.Interface
      Pattern :=
        { anchored := false, boundary := false, ngroups := 1
          re := rcat [rstr "interface", rplus rws, .group 1 (rplus rAlnum)] }
      NameGroup := 1 }
  ]

/-- The `"c"` entry (lines 207-223). -/
def cPatterns : List LanguagePattern :=
  [ { ElementType := HeaderType.Function
      Pattern :=
        { anchored := true, boundary := false, ngroups := 1
          re := rcat [rplus rAlnum, rplus rws, .group 1 (rplus rAlnum),
            .star rws true, rchar '('] }
      NameGroup := 1 }
  , { ElementType := HeaderType.Struct
      Pattern :=
        { anchored := false, boundary := false, ngroups := 1
          re := rcat [rstr "struct", rplus rws, .group 1 (rplus rAlnum),
            .star rws true, rchar lbraceChar] }
      NameGroup := 1 }
  , { ElementType := HeaderType.Define
      Pattern :=
        { anchored := false, boundary := false, ngroups := 1
          re := rcat [rstr "#define", rplus rws, .group 1 (rplus rAlnum)] }
      NameGroup := 1 }
  ]

/-- The `"cpp"` entry (lines 224-245). -/
def cppPatterns : List LanguagePattern :=
  [ { ElementType := HeaderType.Function
      Pattern :=
        { anchored := true, boundary := false, ngroups := 1
          re := rcat [rplus rCppWord, rplus rws, .group 1 (rplus rAlnum),
            .star rws true, rchar '('] }
      NameGroup := 1 }
  , { ElementType := HeaderType.Class
      Pattern :=
        { anchored := false, boundary := false, ngroups := 1
          re := rcat [rstr "class", rplus rws, .group 1 (rplus rAlnum)] }
      NameGroup := 1 }
  , { ElementType := HeaderType.Struct
      Pattern :=
        { anchored := false, boundary := false, ngroups := 1
          re := rcat [rstr "struct", rplus rws, .group 1 (rplus rAlnum),
            .star rws true, rchar lbraceChar] }
      NameGroup := 1 }
  , { ElementType := HeaderType.Namespace
      Pattern :=
        { anchored := false, boundary := false, ngroups := 1
          re := rcat [rstr "namespace", rplus rws, .group 1 (rplus rAlnum)] }
      NameGroup := 1 }
  ]

/-- The `"csharp"` entry (lines 246-270). -/
def csharpPatterns : List LanguagePattern :=
  [ { ElementType := HeaderType.Class
      Pattern :=
        { anchored := false, boundary := true, ngroups := 2
          re := rcat [.opt (.group 1 rScope4) true, rplus rws, rstr "class",
            rplus rws, .group 2 (rplus rAlnum)] }
      NameGroup := 2, ScopeGroup := 1 }
  , { ElementType := HeaderType.Method
      Pattern :=
        { anchored := false, boundary := true, ngroups := 2
          re := rcat [.opt (.group 1 rScope4) true, rplus rws,
            rplus rGenericWord, rplus rws, .group 2 (rplus rAlnum),
            .star rws true, rchar '('] }
      NameGroup := 2, ScopeGroup := 1 }
  , { ElementType := HeaderType.Interface
      Pattern :=
        { anchored := false, boundary := true, ngroups := 2
          re := rcat [.opt (.group 1 rScope4) true, rplus rws,
            rstr "interface", rplus rws, .group 2 (rplus rAlnum)] }
      NameGroup := 2, ScopeGroup := 1 }
  , { ElementType := HeaderType.Namespace
      Pattern :=
        { anchored := false, boundary := false, ngroups := 1
          re := rcat [rstr "namespace", rplus rws, .group 1 (rplus rDotWord)] }
      NameGroup := 1 }
  ]

/-- The `"ruby"` entry (lines 271-287). -/
def rubyPatterns : List LanguagePattern :=
  [ { ElementType := HeaderType.Class
      Pattern :=
        { anchored := true, boundary := false, ngroups := 1
          re := rcat [rstr "class", rplus rws, .group 1 (rplus rAlnum)] }
      NameGroup := 1 }
  , { ElementType := HeaderType.Function
      Pattern :=
        { anchored := true, boundary := false, ngroups := 1
          re := rcat [.star rws true, rstr "def", rplus rws,
            .group 1 (rplus rAlnum)] }
      NameGroup := 1 }
  , { ElementType := HeaderType.Module
      Pattern :=
        { anchored := true, boundary := false, ngroups := 1
          re := rcat [rstr "module", rplus rws, .group 1 (rplus rAlnum)] }
      NameGroup := 1 }
  ]

/-- The `"php"` entry (lines 288-305). -/
def phpPatterns : List LanguagePattern :=
  [ { ElementType := HeaderType.Class
      Pattern :=
        { anchored := false, boundary := false, ngroups := 1
          re := rcat [rstr "class", rplus rws, .group 1 (rplus rAlnum)] }
      NameGroup := 1 }
  , { ElementType := HeaderType.Function
      Pattern :=
        { anchored := false, boundary := false, ngroups := 1
          re := rcat [rstr "function", rplus rws, .group 1 (rplus rAlnum),
            .star rws true, rchar '('] }
      NameGroup := 1 }
  , { ElementType := HeaderType.Method
      Pattern :=
        { anchored := false, boundary := true, ngroups := 2
          re := rcat [.opt (.group 1 rScope3) true, rplus rws,
            rstr "function", rplus rws, .group 2 (rplus rAlnum),
            .star rws true, rchar '('] }
      NameGroup := 2, ScopeGroup := 1 }
  ]

/-- Embedding of `finder.defaultPatterns` (lines 309-320). -/
def defaultPatterns : List LanguagePattern :=
  [ { ElementType := HeaderType.Function
      Pattern :=
        { anchored := false, boundary := true, ngroups := 2
          re := rcat [.group 1 (.alt (rstr "function") (.alt (rstr "def") (rstr "func"))),
            rplus rws, .group 2 (rplus rAlnum), .star rws true, rchar '('] }
      NameGroup := 2 }
  , { ElementType := HeaderType.Class
      Pattern :=
        { anchored := false, boundary := true, ngroups := 2
          re := rcat [.group 1 (rstr "class"), rplus rws, .group 2 (rplus rAlnum)] }
      NameGroup := 2 }
  ]

/-- Embedding of the `languagePatternRegistry` map (lines 66-306): lookup by
language tag, `none` when the language has no entry. -/
def languagePatternRegistry (language : String) : Option (List LanguagePattern) :=
  if language = "go" then some goPatterns
  else if language = "python" then some pythonPatterns
  else if language = "java" then some javaPatterns
  else if language = "javascript" then some javascriptPatterns
  else if language = "typescript" then some typescriptPatterns
  else if language = "c" then some cPatterns
  else if language = "cpp" then some cppPatterns
  else if language = "csharp" then some csharpPatterns
  else if language = "ruby" then some rubyPatterns
  else if language = "php" then some phpPatterns
  else none

/-! ### Header elements and the extraction state machine (part_003 lines
322-551 and 783-847) -/

/-- The `}` character. -/
def rbraceChar : Char := Char.ofNat 125

/-- Embedding of `finder.HeaderElement`.  Go's struct is recursive through
`Children`, so the embedding is an inductive type; the arguments follow the
source field order (Type, Name, LineNum, Signature, Scope, Parent,
Children, EndLine, Parameters, ReturnTypes, ValueType, Value). -/
inductive HeaderElement where
  | mk
    (htype : HeaderType)
    (hName : String)
    (hLineNum : Int)
    (hSignature : String)
    (hScope : String)
    (hParent : String)
    (hChildren : List HeaderElement)
    (hEndLine : Int)
    (hParameters : List ParameterInfo)
    (hReturnTypes : List String)
    (hValueType : String)
    (hValue : String)
deriving Repr

def HeaderElement.htype : HeaderElement → HeaderType
  | .mk t _ _ _ _ _ _ _ _ _ _ _ => t

def HeaderElement.hName : HeaderElement → String
  | .mk _ n _ _ _ _ _ _ _ _ _ _ => n

def HeaderElement.hLineNum : HeaderElement → Int
  | .mk _ _ ln _ _ _ _ _ _ _ _ _ => ln

def HeaderElement.hSignature : HeaderElement → String
  | .mk _ _ _ sig _ _ _ _ _ _ _ _ => sig

def HeaderElement.hScope : HeaderElement → String
  | .mk _ _ _ _ sc _ _ _ _ _ _ _ => sc

def HeaderElement.hParent : HeaderElement → String
  | .mk _ _ _ _ _ p _ _ _ _ _ _ => p

def HeaderElement.hChildren : HeaderElement → List HeaderElement
  | .mk _ _ _ _ _ _ cs _ _ _ _ _ => cs

def HeaderElement.hEndLine : HeaderElement → Int
  | .mk _ _ _ _ _ _ _ e _ _ _ _ => e

def HeaderElement.hParameters : HeaderElement → List ParameterInfo
  | .mk _ _ _ _ _ _ _ _ ps _ _ _ => ps

def HeaderElement.hReturnTypes : HeaderElement → List String
  | .mk _ _ _ _ _ _ _ _ _ rs _ _ => rs

def HeaderElement.hValueType : HeaderElement → String
  | .mk _ _ _ _ _ _ _ _ _ _ vt _ => vt

def HeaderElement.hValue : HeaderElement → String
  | .mk _ _ _ _ _ _ _ _ _ _ _ v => v

def HeaderElement.withChildren : HeaderElement → List HeaderElement → HeaderElement
  | .mk t n ln sig sc p _ e ps rs vt v, cs => .mk t n ln sig sc p cs e ps rs vt v

def HeaderElement.withEndLine : HeaderElement → Int → HeaderElement
  | .mk t n ln sig sc p cs _ ps rs vt v, e => .mk t n ln sig sc p cs e ps rs vt v

/-- An Import child of a Go `import ( … )` block (part_003 lines 394-398). -/
def childImportPlain (name : String) (ln : Int) : HeaderElement :=
  .mk HeaderType.Import name ln "" "" "" [] 0 [] [] "" ""

/-- A Python import child; the alias is stored in the Signature field as the
source does (lines 461-511). -/
def childImportPy (name parent aliasName : String) (ln : Int) : HeaderElement :=
  .mk HeaderType.Import name ln aliasName "" parent [] 0 [] [] "" ""

/-- A Field child of a struct/class body (lines 805-809). -/
def childField (name : String) (ln : Int) : HeaderElement :=
  .mk HeaderType.Field name ln "" "" "" [] 0 [] [] "" ""

/-- Embedding of Go `strings.TrimLeft` for an explicit cutset. -/
def trimLeftCutset (s : String) (cutset : List Char) : String :=
  String.mk (s.toList.dropWhile (cutset.contains ·))

/-- Embedding of `finder.extractField` (lines 822-847). -/
def extractField (line : String) : String :=
  if startsWithStr line "//" || startsWithStr line "/*" || trimSpace line = "" then ""
  else
    let line := if containsSubstr line "//" then (splitN2 line "//").headD "" else line
    let line := trimSpace line
    let parts := fields line
    match parts with
    | [] => ""
    | p :: _ =>
      let fieldName := trimCutset p [':', ',']
      if fieldName ≠ "\x7b" ∧ fieldName ≠ "\x7d" ∧ fieldName ≠ "struct" ∧
          fieldName ≠ "class" then fieldName
      else ""

/-- The scan of `finder.extractMembers` (lines 789-818): `i` is the index of
the head of the remaining lines, `insideBlock`/`bc` the block state; returns
the collected Field children and the end line (0 when the block never
closes, matching the zero value the Go code leaves in `header.EndLine`). -/
def extractMembersLoop : List String → Nat → Bool → Int → List HeaderElement →
    List HeaderElement × Int
  | [], _, _, _, kids => (kids, 0)
  | line :: rest, i, insideBlock, bc, kids =>
    let line := trimSpace line
    let insideBlock := if !insideBlock && containsSubstr line "\x7b" then true else insideBlock
    if insideBlock then
      let bc := bc + countSubstr line lbraceChar - countSubstr line rbraceChar
      let kids :=
        if containsSubstr line ":" || containsSubstr line " " then
          let field := extractField line
          if field ≠ "" then kids ++ [childField field ((i : Int) + 1)] else kids
        else kids
      if bc = 0 then (kids, (i : Int) + 1)
      else extractMembersLoop rest (i + 1) insideBlock bc kids
    else extractMembersLoop rest (i + 1) insideBlock bc kids

/-- Embedding of `finder.extractMembers` (lines 783-819), returning the
Field children to append and the end line to store. -/
def extractMembers (startLine : Nat) (lines : List String) :
    List HeaderElement × Int :=
  if startLine ≥ lines.length then ([], 0)
  else extractMembersLoop (lines.drop (startLine - 1)) (startLine - 1) false 0 []

/-- Strips a trailing `//` comment from a constant/variable value (lines
522-526). -/
def stripValueComment (value : String) : String :=
  if containsSubstr value "//" then trimSpace ((splitN2 value "//").headD "")
  else value

/-- The children of a Python import header (lines 455-513), one split item
at a time. -/
def pythonImportChild (moduleFrom : String) (lineNum : Int) (item : String) :
    List HeaderElement :=
  let item := trimSpace item
  if moduleFrom ≠ "" then
    if item = "*" then [childImportPy "*" moduleFrom "" lineNum]
    else if containsSubstr item " as " then
      let parts := splitOnStr item " as "
      [childImportPy (trimSpace (parts.getD 0 "")) moduleFrom
        (trimSpace (parts.getD 1 "")) lineNum]
    else if item ≠ "" then [childImportPy item moduleFrom "" lineNum]
    else []
  else
    if containsSubstr item " as " then
      let parts := splitOnStr item " as "
      [childImportPy (trimSpace (parts.getD 0 "")) ""
        (trimSpace (parts.getD 1 "")) lineNum]
    else if item ≠ "" then [childImportPy item "" "" lineNum]
    else []

/-- All children of a Python import header. -/
def pythonImportChildren (name parent : String) (lineNum : Int) :
    List HeaderElement :=
  (splitOnStr name ",").foldl
    (fun acc item => acc ++ pythonImportChild parent lineNum item) []

/-- The header a matching pattern produces for a line (lines 407-527,
without the import-block trigger and member extraction, which depend on the
scan state and are handled by `processLine`). -/
def buildHeader (language : String) (pat : LanguagePattern) (ms : List String)
    (trimmedLine : String) (lineNum : Int) (currentClass : String) :
    HeaderElement :=
  let name := ms.getD pat.NameGroup ""
  let signature :=
    if pat.SignatureGroup > 0 ∧ ms.length > pat.SignatureGroup then
      ms.getD pat.SignatureGroup ""
    else trimmedLine
  let scope :=
    if pat.ScopeGroup > 0 ∧ ms.length > pat.ScopeGroup then
      ms.getD pat.ScopeGroup ""
    else ""
  let parent :=
    if pat.ParentGroup > 0 ∧ ms.length > pat.ParentGroup then
      ms.getD pat.ParentGroup ""
    else ""
  let parent :=
    if language = "python" ∧ pat.ElementType = HeaderType.Method ∧
        parent = "" ∧ currentClass ≠ "" then currentClass
    else parent
  let parameters :=
    if pat.ParamsGroup > 0 ∧ ms.length > pat.ParamsGroup then
      parseParametersWithTypes (ms.getD pat.ParamsGroup "") language
    else []
  let returns :=
    if pat.ReturnsGroup > 0 ∧ ms.length > pat.ReturnsGroup then
      parseReturnTypes (ms.getD pat.ReturnsGroup "") language
    else []
  let children :=
    if language = "python" ∧ pat.ElementType = HeaderType.Import then
      pythonImportChildren name parent lineNum
    else []
  let isConstVar :=
    pat.ElementType = HeaderType.Constant ∨ pat.ElementType = HeaderType.Variable
  let valueType :=
    if isConstVar ∧ ms.length > 2 ∧ ms.getD 2 "" ≠ "" then ms.getD 2 ""
    else ""
  let value :=
    if isConstVar ∧ ms.length > 3 ∧ ms.getD 3 "" ≠ "" then
      stripValueComment (trimSpace (ms.getD 3 ""))
    else ""
  .mk pat.ElementType name lineNum signature scope parent children 0
    parameters returns valueType value

/-- The first pattern of the registry list whose regex matches the line and
which passes the `len(matches) > NameGroup && NameGroup > 0` guard (lines
405-407); later patterns are not tried once a pattern produces a header, and
patterns failing only the guard are skipped without breaking. -/
def tryPatterns (patterns : List LanguagePattern) (trimmedLine : String) :
    Option (LanguagePattern × List String) :=
  patterns.findSome? (fun pat =>
    match findStringSubmatch pat.Pattern trimmedLine with
    | none => none
    | some ms =>
      if ms.length > pat.NameGroup ∧ pat.NameGroup > 0 then some (pat, ms)
      else none)

/-- The per-file scan state of `CollectHeaders` (lines 339-347). -/
structure ScanState where
  headers : List HeaderElement
  currentBlock : Option HeaderElement
  inImportBlock : Bool
  braceCount : Int
  currentClass : String

/-- The Python indentation tracking of the scan loop (lines 370-376):
reset the current class on a top-level line. -/
def pyReset (language : String) (st : ScanState) (line trimmedLine : String) :
    ScanState :=
  if language = "python" ∧
      line.length - (trimLeftCutset line [' ', '\t']).length = 0 ∧
      trimmedLine ≠ "" then
    { st with currentClass := "" }
  else st

/-- The brace tracking of the scan loop (line 379). -/
def addBraces (st : ScanState) (trimmedLine : String) : ScanState :=
  { st with braceCount := (st.braceCount +
    countSubstr trimmedLine lbraceChar - countSubstr trimmedLine rbraceChar) }

/-- The in-import-block handling of the scan loop (lines 382-402). -/
def importBlockStep (st : ScanState) (trimmedLine : String) (lineNum : Nat) :
    ScanState :=
  if trimmedLine = ")" then
    match st.currentBlock with
    | some cb =>
      { st with inImportBlock := false,
                headers := st.headers ++ [cb.withEndLine (lineNum : Int)],
                currentBlock := none }
    | none => { st with inImportBlock := false }
  else if ¬ startsWithStr trimmedLine "//" ∧ trimmedLine ≠ "" then
    match st.currentBlock with
    | some cb =>
      { st with currentBlock := some (cb.withChildren (cb.hChildren ++
        [childImportPlain (trimCutset trimmedLine [' ', '\t', '"'])
          (lineNum : Int)])) }
    | none => st
  else st

/-- The pattern-matching step of the scan loop (lines 404-544). -/
def matchStep (language : String) (patterns : List LanguagePattern)
    (lines : List String) (st : ScanState) (lineNum : Nat)
    (trimmedLine : String) : ScanState :=
  match tryPatterns patterns trimmedLine with
  | none => st
  | some (pat, ms) =>
    let header := buildHeader language pat ms trimmedLine (lineNum : Int)
      st.currentClass
    let st :=
      if language = "python" ∧ pat.ElementType = HeaderType.Class then
        { st with currentClass := header.hName }
      else st
    if pat.ElementType = HeaderType.Import ∧ ms.headD "" = "import (" then
      { st with inImportBlock := true, currentBlock := some header }
    else
      let header :=
        if pat.ElementType = HeaderType.Struct ∨
            pat.ElementType = HeaderType.Class then
          let me := extractMembers lineNum lines
          (header.withChildren (header.hChildren ++ me.1)).withEndLine me.2
        else header
      { st with headers := st.headers ++ [header] }

/-- The dispatch on the import-block flag (lines 382 and 404). -/
def afterSkipStep (language : String) (patterns : List LanguagePattern)
    (lines : List String) (st : ScanState) (lineNum : Nat)
    (trimmedLine : String) : ScanState :=
  if st.inImportBlock then importBlockStep st trimmedLine lineNum
  else matchStep language patterns lines st lineNum trimmedLine

/-- One iteration of the `CollectHeaders` scan loop (lines 356-545),
assembled from the pieces above in source order: skip filter, Python
indentation tracking, brace tracking, then block handling or rule
matching. -/
def processLine (language : String) (patterns : List LanguagePattern)
    (lines : List String) (st : ScanState) (lineNum : Nat) (line : String) :
    ScanState :=
  if trimSpace line = "" ∨ startsWithStr (trimSpace line) "//" ∨
      startsWithStr (trimSpace line) "#" ∨ startsWithStr (trimSpace line) "/*" then
    st
  else
    afterSkipStep language patterns lines
      (addBraces (pyReset language st line (trimSpace line)) (trimSpace line))
      lineNum (trimSpace line)

/-- The scan loop (lines 356-545): fold `processLine` over the lines with a
1-based line counter. -/
def collectLoop (language : String) (patterns : List LanguagePattern)
    (lines : List String) : List String → ScanState → Nat → ScanState
  | [], st, _ => st
  | line :: rest, st, lineNum =>
    collectLoop language patterns lines rest
      (processLine language patterns lines st (lineNum + 1) line) (lineNum + 1)

/-- The pure body of `finder.CollectHeaders` on the lines of a file. -/
def collectHeadersLines (language : String) (patterns : List LanguagePattern)
    (lines : List String) : List HeaderElement :=
  (collectLoop language patterns lines lines ⟨[], none, false, 0, ""⟩ 0).headers

/-- Embedding of `filepath.Ext`: the suffix starting at the final dot of the
final path element, empty when there is none. -/
def fileExt (path : String) : String :=
  let revBase := path.toList.reverse.takeWhile (fun c => !(c == '/'))
  if revBase.any (fun c => c == '.') then
    String.mk ('.' :: (revBase.takeWhile (fun c => !(c == '.'))).reverse)
  else ""

/-- Embedding of `finder.DetectLanguage` (finder.go lines 73-114). -/
def DetectLanguage (path : String) : String :=
  let ext := String.mk ((fileExt path).toList.map Char.toLower)
  if ext = ".go" then "go"
  else if ext = ".js" then "javascript"
  else if ext = ".ts" then "typescript"
  else if ext = ".py" then "python"
  else if ext = ".java" then "java"
  else if ext = ".c" ∨ ext = ".h" then "c"
  else if ext = ".cpp" ∨ ext = ".hpp" then "cpp"
  else if ext = ".cs" then "csharp"
  else if ext = ".rb" then "ruby"
  else if ext = ".php" then "php"
  else if ext = ".pl" then "perl"
  else if ext = ".sh" then "bash"
  else if ext = ".html" then "html"
  else if ext = ".css" then "css"
  else if ext = ".md" then "markdown"
  else if ext = ".json" then "json"
  else if ext = ".yaml" ∨ ext = ".yml" then "yaml"
  else "plaintext"

/-- Embedding of `finder.CollectHeaders` (lines 323-551).  File I/O is
modelled by the explicit file system `fs` mapping a path to its list of
lines (`none` = the file cannot be opened/read); the same line list stands
for both the scanner pass and the member-extraction re-read, which differ
in Go only on trailing newlines and `\r`, not exercised by any claim. -/
def CollectHeaders (fs : String → Option (List String)) (path : String) :
    Except String (List HeaderElement) :=
  match fs path with
  | none => Except.error "failed to open file"
  | some lines =>
    let language := DetectLanguage path
    let patterns := (languagePatternRegistry language).getD defaultPatterns
    Except.ok (collectHeadersLines language patterns lines)

/-! ### Theorems about header extraction (C2, C8, C9) -/

/-- The Go method source line of claim C2. -/
def repoGoLine : String :=
  "func (r *Repo) Save(id int, name string) (bool, error) \x7b"

/-- A one-file file system holding exactly that line. -/
def repoGoFs : String → Option (List String) := fun p =>
  if p = "repo.go" then some [repoGoLine] else none

/-- C2 (evaluation at the failing input): header extraction on the line
`func (r *Repo) Save(id int, name string) (bool, error) {` emits a Method
element named `Save` with parent `Repo` and parameters
`[id int, name string]` as the claim states, but its return types are the
single malformed string `"bool, error)"` rather than `["bool", "error"]`:
the rule's trailing `\(?([^{]*)\)?` lets the greedy `[^{]*` swallow the
closing parenthesis (and the blank before `{`), so `parseReturnTypes` never
sees the leading `(` that would trigger its multi-value split. -/
theorem collectHeaders_method_line_eval :
    CollectHeaders repoGoFs "repo.go" =
      Except.ok [HeaderElement.mk HeaderType.Method "Save" 1 repoGoLine ""
        "Repo" [] 0 [⟨"id", "int"⟩, ⟨"name", "string"⟩] ["bool, error)"] "" ""] ∧
      ["bool, error)"] ≠ ["bool", "error"] := by
  constructor
  · rfl
  · decide

theorem processLine_skip (language : String) (patterns : List LanguagePattern)
    (lines : List String) (st : ScanState) (n : Nat) (line : String)
    (h : startsWithStr (trimSpace line) "#" = true) :
    processLine language patterns lines st n line = st := by
  unfold processLine
  rw [if_pos (Or.inr (Or.inr (Or.inl h)))]

theorem pyReset_inImportBlock (language : String) (st : ScanState)
    (line trimmedLine : String) :
    (pyReset language st line trimmedLine).inImportBlock = st.inImportBlock := by
  unfold pyReset
  split <;> rfl

theorem pyReset_headers (language : String) (st : ScanState)
    (line trimmedLine : String) :
    (pyReset language st line trimmedLine).headers = st.headers := by
  unfold pyReset
  split <;> rfl

theorem processLine_nomatch (language : String) (patterns : List LanguagePattern)
    (lines : List String) (st : ScanState) (n : Nat) (line : String)
    (hmatch : tryPatterns patterns (trimSpace line) = none)
    (hib : st.inImportBlock = false) :
    (processLine language patterns lines st n line).headers = st.headers ∧
    (processLine language patterns lines st n line).inImportBlock = false := by
  unfold processLine
  split
  · exact ⟨rfl, hib⟩
  · have hib2 : (addBraces (pyReset language st line (trimSpace line))
        (trimSpace line)).inImportBlock = false := by
      show (pyReset language st line (trimSpace line)).inImportBlock = false
      rw [pyReset_inImportBlock]
      exact hib
    unfold afterSkipStep
    rw [hib2]
    simp only [Bool.false_eq_true, if_false]
    unfold matchStep
    rw [hmatch]
    constructor
    · show (pyReset language st line (trimSpace line)).headers = st.headers
      exact pyReset_headers _ _ _ _
    · exact hib2

theorem collectLoop_nomatch (language : String) (patterns : List LanguagePattern)
    (lines : List String) :
    ∀ (rest : List String) (st : ScanState) (n : Nat),
      (∀ l ∈ rest, tryPatterns patterns (trimSpace l) = none) →
      st.inImportBlock = false →
      (collectLoop language patterns lines rest st n).headers = st.headers := by
  intro rest
  induction rest with
  | nil => intro st n _ _; rfl
  | cons line rest ih =>
    intro st n hall hib
    rw [collectLoop]
    obtain ⟨hh, hb⟩ := processLine_nomatch language patterns lines st (n + 1) line
      (hall line (List.mem_cons_self _ _)) hib
    rw [ih _ (n + 1) (fun l hl => hall l (List.mem_cons_of_mem _ hl)) hb, hh]

/-- C8: `CollectHeaders` returns an error exactly when the file cannot be
opened/read (modelled by the file system yielding no line list), and on
every readable file in which no line produces a match of any rule of the
selected language it returns an empty header sequence and no error. -/
theorem collectHeaders_error_iff_and_nomatch_empty
    (fs : String → Option (List String)) (path : String) :
    ((CollectHeaders fs path).isOk ↔ (fs path).isSome) ∧
      (∀ lines, fs path = some lines →
        (∀ l ∈ lines,
          tryPatterns ((languagePatternRegistry (DetectLanguage path)).getD
            defaultPatterns) (trimSpace l) = none) →
        CollectHeaders fs path = Except.ok []) := by
  constructor
  · cases h : fs path with
    | none =>
      unfold CollectHeaders
      rw [h]
      simp [Except.isOk, Except.toBool]
    | some lines =>
      unfold CollectHeaders
      rw [h]
      simp [Except.isOk, Except.toBool]
  · intro lines hls hall
    unfold CollectHeaders
    rw [hls]
    show Except.ok (collectHeadersLines (DetectLanguage path)
      ((languagePatternRegistry (DetectLanguage path)).getD defaultPatterns)
      lines) = Except.ok []
    unfold collectHeadersLines
    rw [collectLoop_nomatch _ _ _ _ _ _ hall rfl]

/-- A file whose single line matches no Go rule. -/
def noMatchFs : String → Option (List String) := fun p =>
  if p = "a.go" then some ["x := 1"] else none

/-- Witness for C8: on a readable Go file whose single line `x := 1`
matches no rule, extraction succeeds with an empty sequence. -/
theorem collectHeaders_error_iff_and_nomatch_empty_witness :
    ((CollectHeaders noMatchFs "a.go").isOk ↔ (noMatchFs "a.go").isSome) ∧
      CollectHeaders noMatchFs "a.go" = Except.ok [] :=
  ⟨(collectHeaders_error_iff_and_nomatch_empty noMatchFs "a.go").1,
    (collectHeaders_error_iff_and_nomatch_empty noMatchFs "a.go").2 ["x := 1"] rfl
      (by
        intro l hl
        rw [List.mem_singleton] at hl
        subst hl
        rfl)⟩

/-- A one-line C file with `#define` occurring after other text. -/
def defineFs : String → Option (List String) := fun p =>
  if p = "m.c" then some ["x #define FOO"] else none

/-- C9 counterexample: on the C file line `x #define FOO` the trimmed line
does not start with `#`, so it is not skipped, and because the C `#define`
rule's regex is unanchored it matches mid-line: `CollectHeaders` emits a
top-level Define element, contradicting the claim that the Define rule is
unreachable. -/
theorem collectHeaders_emits_define :
    CollectHeaders defineFs "m.c" =
      Except.ok [HeaderElement.mk HeaderType.Define "FOO" 1 "x #define FOO" ""
        "" [] 0 [] [] "" ""] := by
  rfl

theorem collectLoop_skip_hash (language : String) (patterns : List LanguagePattern)
    (lines : List String) :
    ∀ (rest : List String) (st : ScanState) (n : Nat),
      (∀ l ∈ rest, startsWithStr (trimSpace l) "#" = true) →
      collectLoop language patterns lines rest st n = st := by
  intro rest
  induction rest with
  | nil => intro st n _; rfl
  | cons line rest ih =>
    intro st n hall
    rw [collectLoop, processLine_skip language patterns lines st (n + 1) line
      (hall line (List.mem_cons_self _ _)),
      ih st (n + 1) (fun l hl => hall l (List.mem_cons_of_mem _ hl))]

/-- C9 (amended): every line whose trimmed form begins with `#` — in
particular every line on which a `#define` directive actually starts — is
discarded by the comment-skip filter before any rule is tried, so a file
all of whose lines begin (after trimming) with `#` yields no header
elements at all; a Define element can only arise from a line where
`#define` occurs after other text, as in the counterexample above. -/
theorem hash_lines_all_skipped (language : String) (patterns : List LanguagePattern)
    (lines : List String)
    (h : ∀ l ∈ lines, startsWithStr (trimSpace l) "#" = true) :
    collectHeadersLines language patterns lines = [] := by
  unfold collectHeadersLines
  rw [collectLoop_skip_hash language patterns lines lines _ 0 h]

/-- Witness for the amended C9: a C file consisting of the single directive
line `#define FOO 1` yields no headers. -/
theorem hash_lines_all_skipped_witness :
    collectHeadersLines "c" cPatterns ["#define FOO 1"] = [] :=
  hash_lines_all_skipped "c" cPatterns ["#define FOO 1"]
    (by
      intro l hl
      rw [List.mem_singleton] at hl
      subst hl
      rfl)

end Codeclip
